import Mathlib

/-!
Verification development for the stock-ticker service: a read-through cache
in front of the Alpha Vantage quote API.

The definitions below are a shallow embedding of the repository source:

* `cacheSet`, `cacheGet`, `cacheGetStale`, `cacheDelete` embed the `Cache`
  class (`src/lib/cache.js` and the identical inline class in
  `src/app/api/stock-ticker/route.js`, lines 527-551).
* `setRateLimited`, `isRateLimited`, `nextUtcMidnight` embed the rate-limiter
  methods of the inline `Cache` class (`route.js`, lines 553-567).
* `GET` embeds the request handler exported by
  `src/app/api/stock-ticker/route.js` (lines 574-831), the variant that owns
  the rate limiter.  The handler is modelled as a pure function of the shared
  cache state, the configured symbol, the API key, the classified upstream
  reply, and the current time; it returns the HTTP response, the successor
  state, and a trace of the effects it performed, in source order.

Modelling conventions: `Date.now()` is an epoch-millisecond `Nat`, and the
several `Date.now()` / `new Date()` reads within a single request are modelled
as one instant `now` (the handler never compares two in-request reads, and no
state change happens between them).  A thrown exception during fetch/parse
(transport failure, non-ok HTTP status, JSON parse failure) is the
`Except.error` input, which lands in the `catch` block, mirroring that `fetch`
and `response.json()` are the only throw sites reached by the `try` body.
`parseFloat` and `Number.toFixed(2)` are modelled over exact scaled decimals:
the decimal-literal fragment of `parseFloat` (optional whitespace, sign,
digits, fraction; exponent forms and `Infinity` are outside the modelled
fragment), and round-to-nearest with ties up in magnitude for `toFixed`,
which agrees with the double-based JS semantics on the short decimal strings
the upstream serves.  `new Date(ms).toISOString()` is `isoOf`, computed from epoch
milliseconds with the standard proleptic-Gregorian civil-date algorithm.
-/

namespace StockTicker

/-- Decimal representation of `n` left-padded with zeros to width `w`. -/
def pad (w n : Nat) : String :=
  let s := toString n
  ⟨List.replicate (w - s.length) '0'⟩ ++ s

/-- Value of a list of decimal digit characters. -/
def digitsToNat (l : List Char) : Nat :=
  l.foldl (fun a c => a * 10 + (c.toNat - 48)) 0

/-- Embedding of `new Date(ms).toISOString()`: UTC ISO-8601 text
`YYYY-MM-DDTHH:mm:ss.sssZ` from epoch milliseconds, via the standard
civil-from-days conversion (UTC days are exactly 86400000 ms). -/
def isoOf (ms : Nat) : String :=
  let days := ms / 86400000
  let rem := ms % 86400000
  let hh := rem / 3600000
  let mm := (rem % 3600000) / 60000
  let ss := (rem % 60000) / 1000
  let mss := rem % 1000
  let z := days + 719468
  let era := z / 146097
  let doe := z % 146097
  let yoe := (doe - doe / 1460 + doe / 36524 - doe / 146096) / 365
  let y0 := yoe + era * 400
  let doy := doe - (365 * yoe + yoe / 4 - yoe / 100)
  let mp := (5 * doy + 2) / 153
  let d := doy - (153 * mp + 2) / 5 + 1
  let m := if mp < 10 then mp + 3 else mp - 9
  let y := if m ≤ 2 then y0 + 1 else y0
  pad 4 y ++ "-" ++ pad 2 m ++ "-" ++ pad 2 d ++ "T" ++
    pad 2 hh ++ ":" ++ pad 2 mm ++ ":" ++ pad 2 ss ++ "." ++ pad 3 mss ++ "Z"

/-- Embedding of `parseFloat` on the decimal-literal fragment: skip leading
whitespace, optional sign, then the longest `digits[.digits]` or `.digits`
prefix; `none` models `NaN` (no digit found at all).  The parsed number is
kept as an exact scaled decimal `(neg, mant, scale)` denoting
`(-1)^neg * mant / 10^scale`. -/
def parseFloatQ (s : String) : Option (Bool × Nat × Nat) :=
  let cs := s.data.dropWhile (fun c => c == ' ' || c == '\t' || c == '\n' || c == '\r')
  let signed : Bool × List Char :=
    match cs with
    | '-' :: r => (true, r)
    | '+' :: r => (false, r)
    | r => (false, r)
  let ip := signed.2.takeWhile Char.isDigit
  let rest := signed.2.dropWhile Char.isDigit
  let fp :=
    match rest with
    | '.' :: r2 => r2.takeWhile Char.isDigit
    | _ => []
  if ip.isEmpty && fp.isEmpty then none
  else some (signed.1, digitsToNat (ip ++ fp), fp.length)

/-- `parseFloat` applied to a possibly-`undefined` field: `parseFloat(undefined)`
is `NaN`, modelled as `none`. -/
def jsParseFloat : Option String → Option (Bool × Nat × Nat)
  | none => none
  | some s => parseFloatQ s

/-- Digits of `m` hundredths as `intpart.fracpart` with two fraction places. -/
def fixed2Str (m : Nat) : String :=
  toString (m / 100) ++ "." ++ pad 2 (m % 100)

/-- Embedding of `Number.prototype.toFixed(2)` per the ECMA algorithm: the
sign is emitted separately, and the magnitude is rounded to the nearest
hundredth, ties to the larger count of hundredths:
`n = floor(mant / 10^scale * 100 + 1 / 2)` computed exactly over the scaled
decimal. -/
def toFixed2 : Bool × Nat × Nat → String
  | (neg, mant, scale) =>
    let n := (200 * mant + 10 ^ scale) / (2 * 10 ^ scale)
    (if neg then "-" else "") ++ fixed2Str n

/-- `parseFloat(x).toFixed(2)` as used for the `price` and `change` fields;
`NaN.toFixed(2)` is the string `NaN`. -/
def fmtNum (o : Option String) : String :=
  match jsParseFloat o with
  | some q => toFixed2 q
  | none => "NaN"

/-- Character class `[A-Z0-9]` under the `i` flag of the sanitizing regex. -/
def isAlnumC (c : Char) : Bool :=
  ('A' ≤ c && c ≤ 'Z') || ('a' ≤ c && c ≤ 'z') || ('0' ≤ c && c ≤ '9')

/-- Case-insensitive character comparison, for the `i` regex flag. -/
def lcEq (a b : Char) : Bool := a.toLower == b.toLower

/-- Match a literal pattern case-insensitively against a prefix of the input,
returning the rest of the input on success. -/
def matchLit : List Char → List Char → Option (List Char)
  | [], s => some s
  | _ :: _, [] => none
  | p :: ps, c :: cs => if lcEq p c then matchLit ps cs else none

/-- The literal part `API key as ` of the sanitizing regex. -/
def patAPI : List Char := ['A', 'P', 'I', ' ', 'k', 'e', 'y', ' ', 'a', 's', ' ']

/-- The replacement text `API key`. -/
def patKey : List Char := ['A', 'P', 'I', ' ', 'k', 'e', 'y']

/-- One left-to-right pass of
`note.replace(/API key as [A-Z0-9]+/gi, 'API key')` (`route.js` line 715):
at each position try the literal `API key as ` case-insensitively followed by
a maximal nonempty alphanumeric run; on a match emit the replacement and
continue after the match (replacements are not rescanned), otherwise copy one
character.  The first argument is fuel, instantiated with the input length,
which bounds the recursion since every step consumes at least one character. -/
def sanitizeAux : Nat → List Char → List Char
  | 0, s => s
  | _ + 1, [] => []
  | fuel + 1, c :: cs =>
    match matchLit patAPI (c :: cs) with
    | some rest =>
      let run := rest.takeWhile isAlnumC
      if run.isEmpty then c :: sanitizeAux fuel cs
      else patKey ++ sanitizeAux fuel (rest.drop run.length)
    | none => c :: sanitizeAux fuel cs

/-- Embedding of the sanitizing `String.replace` call on the upstream note. -/
def sanitize (s : String) : String := ⟨sanitizeAux s.data.length s.data⟩

/-- The normalized client-facing success payload built by the handler
(`route.js` lines 783-792).  `changePercent` and `lastTradingDay` are passed
through verbatim and may be absent (`undefined`). -/
structure QuoteResult where
  status : String
  symbol : String
  price : String
  change : String
  changePercent : Option String
  lastTradingDay : Option String
  timestamp : String
  lastRefreshed : String
deriving Repr, DecidableEq

/-- One cache entry: the stored value and its absolute expiry instant. -/
structure CacheEntry where
  value : QuoteResult
  expiresAt : Nat
deriving Repr, DecidableEq

/-- The backing `Map` of the cache, keyed by the lower-cased symbol. -/
abbrev CacheMap := List (String × CacheEntry)

/-- The shared mutable state of the inline `Cache` class: the entry map and
the rate-limit deadline `rateLimitUntil` (absent when not limited). -/
structure Cache where
  store : CacheMap
  rateLimitUntil : Option Nat
deriving Repr, DecidableEq

/-- `Map.delete(key)`. -/
def cacheDelete (m : CacheMap) (k : String) : CacheMap :=
  m.filter (fun p => p.1 != k)

/-- `Cache.set(key, value, ttlSeconds)` at time `now`: stores the value with
`expiresAt = now + ttlSeconds * 1000`, replacing any prior entry. -/
def cacheSet (m : CacheMap) (k : String) (v : QuoteResult) (ttlSeconds now : Nat) : CacheMap :=
  (k, ⟨v, now + ttlSeconds * 1000⟩) :: cacheDelete m k

/-- `Cache.get(key)` at time `now`: absent if never set; if the entry has
expired (`now > expiresAt`) it is deleted (lazy eviction) and absent is
returned; otherwise the stored value.  Returns the value and the
possibly-mutated map. -/
def cacheGet (m : CacheMap) (k : String) (now : Nat) : Option QuoteResult × CacheMap :=
  match List.lookup k m with
  | none => (none, m)
  | some item =>
    if now > item.expiresAt then (none, cacheDelete m k) else (some item.value, m)

/-- `Cache.getStale(key)`: the stored value regardless of expiry, absent only
when no entry is present. -/
def cacheGetStale (m : CacheMap) (k : String) : Option QuoteResult :=
  (List.lookup k m).map (·.value)

/-- The instant `Date.UTC(y, m, d + 1, 0, 0, 0, 0)` for the UTC date of `now`:
the next UTC midnight strictly after the current UTC day began.  Since Unix
epoch days are exactly 86400000 ms, this is the next multiple of 86400000
after rounding `now` down to its day. -/
def nextUtcMidnight (now : Nat) : Nat := (now / 86400000 + 1) * 86400000

/-- `Cache.setRateLimited()` at time `now`: records the deadline at the next
UTC midnight (`route.js` lines 553-558). -/
def setRateLimited (c : Cache) (now : Nat) : Cache :=
  { c with rateLimitUntil := some (nextUtcMidnight now) }

/-- `Cache.isRateLimited()` at time `now`: false if no deadline; if the
deadline has passed it is cleared and false is returned; otherwise true.
Returns the answer and the possibly-mutated state. -/
def isRateLimited (c : Cache) (now : Nat) : Bool × Cache :=
  match c.rateLimitUntil with
  | none => (false, c)
  | some u => if now > u then (false, { c with rateLimitUntil := none }) else (true, c)

/-- Pure view of `isRateLimited`: is a recorded deadline still in the future
(inclusive)? -/
def limiterActive (c : Cache) (now : Nat) : Bool :=
  match c.rateLimitUntil with
  | none => false
  | some u => if now > u then false else true

/-- Embedding of `String.prototype.toLowerCase()` as used to build the cache
key from the ASCII stock symbol: per-character lowering. -/
def toLowerStr (s : String) : String := ⟨s.data.map Char.toLower⟩

/-- The classified upstream JSON payload: the advisory fields the handler
probes (`Error Message`, `Information`, `Note`) and the `Global Quote` object
as an association list of its string fields. -/
structure ApiData where
  errorMessage : Option String
  information : Option String
  note : Option String
  globalQuote : Option (List (String × String))
deriving Repr, DecidableEq

/-- JS truthiness of an optional string field (`undefined` and the empty
string are falsy). -/
def truthy : Option String → Bool
  | none => false
  | some s => !s.isEmpty

/-- The JSON body of an error response: the literal `status` and `message`
fields plus the optional diagnostic fields the various sites attach. -/
structure ErrBody where
  status : String
  message : String
  alphaVantageError : Option String := none
  information : Option String := none
  rateLimit : Option String := none
  errorField : Option String := none
deriving Repr, DecidableEq

/-- A response body: a quote payload (fresh, stale or newly built) or an
error envelope. -/
inductive RespBody where
  | quote (q : QuoteResult)
  | err (e : ErrBody)
deriving Repr, DecidableEq

/-- An HTTP response: status code and JSON body. -/
structure HttpResponse where
  httpStatus : Nat
  body : RespBody
deriving Repr, DecidableEq

/-- Observable effects of one request, in source order. -/
inductive Event where
  | freshRead
  | rateCheck
  | staleRead
  | upstreamCall
  | markLimited
  | cacheWrite
deriving Repr, DecidableEq, BEq

/-- Does `a` occur (strictly) before the first occurrence of `b` in `tr`? -/
def before (a b : Event) (tr : List Event) : Bool :=
  (tr.takeWhile (fun e => e != b)).contains a

/-- Builds the success `result` object (`route.js` lines 783-792): quote
fields passed through, `price` and `change` reformatted to two decimals,
`timestamp` and `lastRefreshed` set from the server clock.  The upstream
`06. timestamp` field is bound by the source (line 763) but never used in the
result, so it does not appear here. -/
def mkResult (q : List (String × String)) (now : Nat) : QuoteResult :=
  { status := "success"
  , symbol := (List.lookup "01. symbol" q).getD ""
  , price := fmtNum (List.lookup "05. price" q)
  , change := fmtNum (List.lookup "09. change" q)
  , changePercent := List.lookup "10. change percent" q
  , lastTradingDay := List.lookup "07. latest trading day" q
  , timestamp := isoOf now
  , lastRefreshed := isoOf now }

/-- `CACHE_TTL` of the modelled handler variant (seconds). -/
def CACHE_TTL : Nat := 300

/-- Embedding of the exported `GET` handler (`route.js` lines 574-831).
Inputs: the configured `STOCK_SYMBOL`, the shared cache state, the optional
`ALPHA_VANTAGE_API_KEY`, the upstream reply (`Except.error` is a thrown
transport/HTTP/parse failure caught by the `catch` block), and the current
time.  Output: the response, the successor state, and the trace of effects in
source order.  Path order follows the source exactly: fresh cache read, rate
limiter gate (stale fallback, no upstream call), API-key check, upstream
fetch, then classification of the reply (`Error Message`, `Information`,
`Note`, missing or empty `Global Quote`, field validation, success). -/
def GET (sym : String) (c : Cache) (apiKey : Option String)
    (reply : Except String ApiData) (now : Nat) :
    HttpResponse × Cache × List Event :=
  match cacheGet c.store (toLowerStr sym) now with
  | (some v, m) => (⟨200, .quote v⟩, ⟨m, c.rateLimitUntil⟩, [.freshRead])
  | (none, m) =>
    match isRateLimited ⟨m, c.rateLimitUntil⟩ now with
    | (true, c2) =>
      match cacheGetStale c2.store (toLowerStr sym) with
      | some v => (⟨200, .quote v⟩, c2, [.freshRead, .rateCheck, .staleRead])
      | none =>
        (⟨503, .err { status := "error"
                    , message := "Service temporarily unavailable - API rate limit reached" }⟩,
         c2, [.freshRead, .rateCheck, .staleRead])
    | (false, c2) =>
      match apiKey with
      | none =>
        (⟨500, .err { status := "error", message := "API key not configured" }⟩,
         c2, [.freshRead, .rateCheck])
      | some _ =>
        match reply with
        | .error e =>
          match cacheGetStale c2.store (toLowerStr sym) with
          | some v =>
            (⟨200, .quote v⟩, c2, [.freshRead, .rateCheck, .upstreamCall, .staleRead])
          | none =>
            (⟨503, .err { status := "error", message := "Service not available"
                        , errorField := some e }⟩,
             c2, [.freshRead, .rateCheck, .upstreamCall, .staleRead])
        | .ok data =>
          if truthy data.errorMessage then
            (⟨503, .err { status := "error", message := "Service not available"
                        , alphaVantageError := data.errorMessage }⟩,
             c2, [.freshRead, .rateCheck, .upstreamCall])
          else if truthy data.information then
            match cacheGetStale (setRateLimited c2 now).store (toLowerStr sym) with
            | some v =>
              (⟨200, .quote v⟩, setRateLimited c2 now,
               [.freshRead, .rateCheck, .upstreamCall, .markLimited, .staleRead])
            | none =>
              (⟨503, .err { status := "error"
                          , message := "Service temporarily unavailable - API rate limit reached"
                          , information := some "Daily API limit reached. Please try again later or upgrade to premium for higher limits." }⟩,
               setRateLimited c2 now,
               [.freshRead, .rateCheck, .upstreamCall, .markLimited, .staleRead])
          else if truthy data.note then
            match cacheGetStale (setRateLimited c2 now).store (toLowerStr sym) with
            | some v =>
              (⟨200, .quote v⟩, setRateLimited c2 now,
               [.freshRead, .rateCheck, .upstreamCall, .markLimited, .staleRead])
            | none =>
              (⟨503, .err { status := "error", message := "Service not available"
                          , rateLimit := some (sanitize (data.note.getD "")) }⟩,
               setRateLimited c2 now,
               [.freshRead, .rateCheck, .upstreamCall, .markLimited, .staleRead])
          else
            match data.globalQuote with
            | none =>
              (⟨503, .err { status := "error", message := "Service not available" }⟩,
               c2, [.freshRead, .rateCheck, .upstreamCall])
            | some q =>
              if q.isEmpty then
                (⟨503, .err { status := "error", message := "Service not available" }⟩,
                 c2, [.freshRead, .rateCheck, .upstreamCall])
              else if !truthy (List.lookup "01. symbol" q)
                  || (jsParseFloat (List.lookup "05. price" q)).isNone then
                (⟨503, .err { status := "error", message := "Service not available" }⟩,
                 c2, [.freshRead, .rateCheck, .upstreamCall])
              else
                (⟨200, .quote (mkResult q now)⟩,
                 ⟨cacheSet c2.store (toLowerStr sym) (mkResult q now) CACHE_TTL now, c2.rateLimitUntil⟩,
                 [.freshRead, .rateCheck, .upstreamCall, .cacheWrite])

/-- Every value the cache holds has status `success`: the only writer is the
success path of the handler, which stores `mkResult`. -/
def cacheOK (m : CacheMap) : Prop :=
  ∀ p ∈ m, (p : String × CacheEntry).2.value.status = "success"

/-! ### Sample data shared by witnesses and counterexamples -/

/-- A well-formed `Global Quote` object as the upstream serves it. -/
def sampleQuote : List (String × String) :=
  [ ("01. symbol", "AAPL")
  , ("05. price", "123.45")
  , ("09. change", "1.23")
  , ("10. change percent", "1.01%")
  , ("07. latest trading day", "2026-10-10") ]

/-- A successful upstream reply carrying `sampleQuote`. -/
def sampleData : ApiData := ⟨none, none, none, some sampleQuote⟩

/-- An upstream reply with none of the probed fields. -/
def emptyData : ApiData := ⟨none, none, none, none⟩

/-- A success payload as stored by a prior successful fetch. -/
def sampleResult : QuoteResult :=
  ⟨"success", "AAPL", "123.45", "1.23", some "1.01%", some "2026-10-10",
   "1970-01-01T00:00:00.000Z", "1970-01-01T00:00:00.000Z"⟩

/-- Does `needle` occur as a prefix of `hay`? -/
def startsWithSeg : List Char → List Char → Bool
  | [], _ => true
  | _ :: _, [] => false
  | a :: as, b :: bs => a == b && startsWithSeg as bs

/-- Does `needle` occur as a contiguous segment of `hay`? -/
def hasSeg (needle : List Char) : List Char → Bool
  | [] => startsWithSeg needle []
  | c :: cs => startsWithSeg needle (c :: cs) || hasSeg needle cs

/-- A state reached after a successful fetch stored a value at some earlier
time (entry expires at 1000) and a later throttled reply armed the limiter
(deadline at the next UTC midnight); nothing deleted the entry before the
request under scrutiny. -/
def c1State : Cache := ⟨[("aapl", ⟨sampleResult, 1000⟩)], some (nextUtcMidnight 5000)⟩

/-- An upstream note crafted so that the single left-to-right replacement
pass leaves an `API key as <key>` mention in the echoed text. -/
def leakData : ApiData := ⟨none, none, some "API key as AAAA as SECRETKEY99", none⟩

/-- Well-formedness of one response: a quote body is served with HTTP 200; an
error body carries the literal status `error` and a nonempty message, with
HTTP status 503 or 500. -/
def errOK (resp : HttpResponse) : Prop :=
  match resp.body with
  | .quote _ => resp.httpStatus = 200
  | .err e => e.status = "error" ∧ e.message ≠ "" ∧
      (resp.httpStatus = 503 ∨ resp.httpStatus = 500)

/-! ### Helper lemmas -/

theorem lookup_cacheSet (m : CacheMap) (k : String) (v : QuoteResult) (ttl now : Nat) :
    List.lookup k (cacheSet m k v ttl now) = some ⟨v, now + ttl * 1000⟩ := by
  simp [cacheSet, List.lookup]

theorem isRateLimited_fst (c : Cache) (now : Nat) :
    (isRateLimited c now).1 = limiterActive c now := by
  unfold isRateLimited limiterActive
  cases c.rateLimitUntil with
  | none => rfl
  | some u => by_cases h : now > u <;> simp [h]

theorem lookup_mem {m : CacheMap} {k : String} {e : CacheEntry}
    (h : List.lookup k m = some e) : ∃ k', (k', e) ∈ m := by
  induction m with
  | nil => simp [List.lookup] at h
  | cons p tl ih =>
    rw [List.lookup] at h
    by_cases hk : (k == p.1) = true
    · simp [hk] at h
      exact ⟨p.1, by simp [← h]⟩
    · simp [hk] at h
      obtain ⟨k', hk'⟩ := ih h
      exact ⟨k', List.mem_cons_of_mem _ hk'⟩

theorem cacheOK_nil : cacheOK [] := by
  intro p hp
  simp at hp

theorem cacheOK_filter {m : CacheMap} (h : cacheOK m) (f : String × CacheEntry → Bool) :
    cacheOK (m.filter f) := by
  intro p hp
  exact h p (List.mem_of_mem_filter hp)

theorem cacheOK_delete {m : CacheMap} (h : cacheOK m) (k : String) :
    cacheOK (cacheDelete m k) := cacheOK_filter h _

theorem cacheOK_get {m : CacheMap} (h : cacheOK m) (k : String) (now : Nat) :
    cacheOK (cacheGet m k now).2 := by
  unfold cacheGet
  cases hl : List.lookup k m with
  | none => exact h
  | some item =>
    by_cases ht : now > item.expiresAt
    · simpa [ht] using cacheOK_delete h k
    · simpa [ht] using h

theorem cacheOK_get_val {m : CacheMap} (h : cacheOK m) {k : String} {now : Nat}
    {v : QuoteResult} (hv : (cacheGet m k now).1 = some v) : v.status = "success" := by
  unfold cacheGet at hv
  cases hl : List.lookup k m with
  | none => simp [hl] at hv
  | some item =>
    rw [hl] at hv
    by_cases ht : now > item.expiresAt
    · simp [ht] at hv
    · simp [ht] at hv
      obtain ⟨k', hk'⟩ := lookup_mem hl
      simpa [← hv] using h _ hk'

theorem cacheOK_stale_val {m : CacheMap} (h : cacheOK m) {k : String}
    {v : QuoteResult} (hv : cacheGetStale m k = some v) : v.status = "success" := by
  unfold cacheGetStale at hv
  cases hl : List.lookup k m with
  | none => simp [hl] at hv
  | some item =>
    rw [hl] at hv
    simp at hv
    obtain ⟨k', hk'⟩ := lookup_mem hl
    simpa [← hv] using h _ hk'

theorem cacheOK_set {m : CacheMap} (h : cacheOK m) (k : String)
    {v : QuoteResult} (hv : v.status = "success") (ttl now : Nat) :
    cacheOK (cacheSet m k v ttl now) := by
  intro p hp
  rcases List.mem_cons.mp hp with hp1 | hp2
  · simp [hp1, hv]
  · exact cacheOK_delete h k p hp2

theorem matchLit_pat_cons (ks : List Char) :
    matchLit patAPI
      ('A' :: 'P' :: 'I' :: ' ' :: 'k' :: 'e' :: 'y' :: ' ' :: 'a' :: 's' :: ' ' :: ks)
      = some ks := by
  simp +decide [patAPI, matchLit, lcEq]

theorem takeWhile_all {p : Char → Bool} {l : List Char}
    (h : ∀ c ∈ l, p c = true) : l.takeWhile p = l := by
  induction l with
  | nil => rfl
  | cons c cs ih =>
    rw [List.takeWhile_cons, h c (by simp)]
    simp [ih fun x hx => h x (by simp [hx])]

theorem sanitizeAux_nil (fuel : Nat) : sanitizeAux fuel [] = [] := by
  cases fuel <;> rfl

/-- One pass of the sanitizer fully removes a note that starts with a single
canonical `API key as <key>` mention: the literal matches, the whole key is
the maximal alphanumeric run, and the scan resumes after it. -/
theorem sanitizeAux_pat (fuel : Nat) (ks : List Char) (h1 : ks ≠ [])
    (h2 : ∀ c ∈ ks, isAlnumC c = true) :
    sanitizeAux (fuel + 1) (patAPI ++ ks) = patKey := by
  have hsplit : patAPI ++ ks =
      'A' :: 'P' :: 'I' :: ' ' :: 'k' :: 'e' :: 'y' :: ' ' :: 'a' :: 's' :: ' ' :: ks := by
    simp [patAPI]
  rw [hsplit]
  rw [sanitizeAux, matchLit_pat_cons]
  dsimp only
  rw [takeWhile_all h2]
  have hne : ks.isEmpty = false := by
    cases ks with
    | nil => exact absurd rfl h1
    | cons a l => rfl
  simp [hne, List.drop_length, sanitizeAux_nil]

/-- String-level form of `sanitizeAux_pat`. -/
theorem sanitize_pat (ks : List Char) (h1 : ks ≠ [])
    (h2 : ∀ c ∈ ks, isAlnumC c = true) :
    sanitize ⟨patAPI ++ ks⟩ = "API key" := by
  unfold sanitize
  have hlen : (String.mk (patAPI ++ ks)).data.length = (ks.length + 10) + 1 := by
    simp [patAPI]
  rw [show (String.mk (patAPI ++ ks)).data = patAPI ++ ks from rfl, hlen,
    sanitizeAux_pat _ ks h1 h2]
  decide

theorem isRateLimited_store (c : Cache) (now : Nat) :
    (isRateLimited c now).2.store = c.store := by
  unfold isRateLimited
  cases c.rateLimitUntil with
  | none => rfl
  | some u => by_cases h : now > u <;> simp [h]

/-! ### Claim C4 -/

/-- Claim C4: for every key `k`, value `v` and ttl, after `set(k, v, ttl)` at
time `t`, `get(k)` returns `v` at every time strictly before `t + ttl` and
returns absent at every time strictly after `t + ttl`; the behaviour at
exactly `t + ttl` is one fixed, consistent choice — the code tests
`now > expiresAt`, so at the boundary it still returns `v`, uniformly in the
state, key and value. -/
theorem C4_get_after_set (m : CacheMap) (k : String) (v : QuoteResult) (ttl t now : Nat) :
    (cacheGet (cacheSet m k v ttl t) k now).1 =
      if now ≤ t + ttl * 1000 then some v else none := by
  unfold cacheGet
  rw [lookup_cacheSet]
  by_cases h : now > t + ttl * 1000
  · have h2 : ¬ (now ≤ t + ttl * 1000) := by omega
    simp [h, h2]
  · have h2 : now ≤ t + ttl * 1000 := by omega
    simp [h, h2]

/-! ### Claim C3 -/

/-- Claim C3 counterexample: `getStale` does not return the last-set value at
every later time.  After `set("aapl", v, 1)` at time 0 the entry expires at
1000; a `get` at time 2000 lazily evicts it (`cache.delete` inside `get`),
after which `getStale` returns absent, not `v` — refuting the claim at this
concrete input (the claim asserts `getStale` still returns `v` even when an
intervening `get` was made after expiry). -/
theorem C3_counterexample_get_evicts :
    cacheGetStale (cacheSet [] "aapl" sampleResult 1 0) "aapl" = some sampleResult ∧
    cacheGetStale ((cacheGet (cacheSet [] "aapl" sampleResult 1 0) "aapl" 2000).2) "aapl" = none := by
  decide

/-- Claim C3 as amended: after `set(k, v, ttl)` and before any delete or
overwrite, `getStale(k)` returns `v` at every later time — including after
expiry — provided no intervening `get(k)` was made after expiry; a `get`
performed while the entry is still fresh (`now ≤ t + ttl`) leaves `getStale`
returning `v`. -/
theorem C3_amended_getStale (m : CacheMap) (k : String) (v : QuoteResult) (ttl t now : Nat)
    (h : now ≤ t + ttl * 1000) :
    cacheGetStale (cacheSet m k v ttl t) k = some v ∧
    cacheGetStale ((cacheGet (cacheSet m k v ttl t) k now).2) k = some v := by
  constructor
  · unfold cacheGetStale
    rw [lookup_cacheSet]
    rfl
  · unfold cacheGet
    rw [lookup_cacheSet]
    have h2 : ¬ (now > t + ttl * 1000) := by omega
    simp only [h2, if_false]
    unfold cacheGetStale
    rw [lookup_cacheSet]
    rfl

theorem C3_amended_getStale_witness :
    (2 : Nat) ≤ 0 + 1 * 1000 ∧
    (cacheGetStale (cacheSet [] "aapl" sampleResult 1 0) "aapl" = some sampleResult ∧
     cacheGetStale ((cacheGet (cacheSet [] "aapl" sampleResult 1 0) "aapl" 2).2) "aapl"
       = some sampleResult) :=
  ⟨by decide, C3_amended_getStale [] "aapl" sampleResult 1 0 2 (by decide)⟩

/-! ### Claim C6 -/

/-- Claim C6: if the deadline is recorded again while the limiter is already
active, the new deadline is never earlier than the recorded one.  The
recorded deadline is always `nextUtcMidnight` of the recording instant (the
only writer is `setRateLimited`), and while it is still active every later
call computes the same or a later midnight. -/
theorem C6_markLimited_monotone (c : Cache) (t now : Nat)
    (_hdl : c.rateLimitUntil = some (nextUtcMidnight t))
    (ht : t ≤ now)
    (_hact : limiterActive c now = true) :
    ∃ u, (setRateLimited c now).rateLimitUntil = some u ∧ nextUtcMidnight t ≤ u := by
  refine ⟨nextUtcMidnight now, rfl, ?_⟩
  unfold nextUtcMidnight
  have hd : t / 86400000 ≤ now / 86400000 := Nat.div_le_div_right ht
  omega

theorem C6_markLimited_monotone_witness :
    (⟨[], some (nextUtcMidnight 0)⟩ : Cache).rateLimitUntil = some (nextUtcMidnight 0) ∧
    (0 : Nat) ≤ 5 ∧
    limiterActive ⟨[], some (nextUtcMidnight 0)⟩ 5 = true ∧
    ∃ u, (setRateLimited (⟨[], some (nextUtcMidnight 0)⟩ : Cache) 5).rateLimitUntil = some u ∧
      nextUtcMidnight 0 ≤ u :=
  ⟨rfl, by decide, by decide,
   C6_markLimited_monotone ⟨[], some (nextUtcMidnight 0)⟩ 0 5 rfl (by decide) (by decide)⟩

/-! ### Claim C1 -/

/-- Claim C1, evaluated at the failing input (code bug): the limiter is
active, a value stored by a prior successful fetch is present and was never
deleted, its TTL has expired (`now = 5000 > 1000`).  The claim (and the
handler comments and log lines, `route.js` 599-609) say the stored value is
returned with success status and zero upstream calls; the code instead
returns the 503 rate-limit error: the fresh read at line 591 lazily evicts
the expired entry before the gate at line 604 calls `getStale`, so the stale
fallback finds nothing.  No upstream call is made, and the entry is gone from
the resulting state. -/
theorem C1_code_returns_error_on_expired_stale_while_limited :
    GET "AAPL" c1State (some "K") (.ok emptyData) 5000 =
      (⟨503, .err { status := "error"
                  , message := "Service temporarily unavailable - API rate limit reached" }⟩,
       ⟨[], some (nextUtcMidnight 5000)⟩,
       [.freshRead, .rateCheck, .staleRead]) ∧
    (GET "AAPL" c1State (some "K") (.ok emptyData) 5000).1.body ≠ .quote sampleResult := by
  decide

/-! ### Claim C5 -/

/-- Claim C5 counterexample: two requests at different instants that both
process the identical well-formed upstream payload cache `QuoteResult` values
that are not identical in every field.  The first request (time 0) caches its
result; the second (time 300001, just past the TTL) fetches the same payload
again and caches a value differing in `timestamp` and `lastRefreshed`. -/
theorem C5_counterexample_timestamps_differ :
    cacheGetStale (GET "AAPL" ⟨[], none⟩ (some "K") (.ok sampleData) 0).2.1.store "aapl"
      = some (mkResult sampleQuote 0) ∧
    cacheGetStale (GET "AAPL" (GET "AAPL" ⟨[], none⟩ (some "K") (.ok sampleData) 0).2.1
        (some "K") (.ok sampleData) 300001).2.1.store "aapl"
      = some (mkResult sampleQuote 300001) ∧
    mkResult sampleQuote 0 ≠ mkResult sampleQuote 300001 := by
  decide

/-- Claim C5 as amended: repeated identical successful upstream replies
produce cached `QuoteResult` values that are identical in every quote-derived
field (`status`, `symbol`, `price`, `change`, `changePercent`,
`lastTradingDay`) — no accumulation or drift across repeated writes — while
`timestamp` and `lastRefreshed` carry each request's own processing time.
The equation says the result of processing the payload at `n1` is exactly the
result of processing it at `n2` with only the two server-clock fields
replaced. -/
theorem C5_amended_idempotent_fields (q : List (String × String)) (n1 n2 : Nat) :
    mkResult q n1 =
      { mkResult q n2 with timestamp := isoOf n1, lastRefreshed := isoOf n1 } := rfl

/-! ### Claim C9 -/

/-- Claim C9 counterexample: the API key can appear in the 503 response that
echoes an upstream rate-limit note.  On this note the sanitizer replaces the
leftmost `API key as AAAA` and resumes after it, so the echoed `rateLimit`
field is `API key as SECRETKEY99`: the key `SECRETKEY99` appears in the
response, still inside an `API key as <key>` mention. -/
theorem C9_counterexample_key_survives :
    (GET "AAPL" ⟨[], none⟩ (some "K") (.ok leakData) 0).1 =
      ⟨503, .err { status := "error", message := "Service not available"
                 , rateLimit := some "API key as SECRETKEY99" }⟩ ∧
    hasSeg "SECRETKEY99".data "API key as SECRETKEY99".data = true := by
  decide

/-- Claim C9 as amended: when an upstream rate-limit note is echoed in the
503 error response, the primary `message` field is the fixed string
`Service not available` independent of the upstream text, and the echoed text
is the note with `API key as <key>` occurrences replaced by `API key` in one
left-to-right pass; a note consisting of a single canonical mention has the
key fully removed, but the key may survive when the note contains it outside
that pattern or in a mention re-formed by the replacement. -/
theorem C9_amended_sanitized_echo (sym note : String) (c : Cache) (k : String)
    (em inf : Option String) (gq : Option (List (String × String))) (now : Nat)
    (ks : List Char)
    (hm : (cacheGet c.store (toLowerStr sym) now).1 = none)
    (hstale : cacheGetStale (cacheGet c.store (toLowerStr sym) now).2 (toLowerStr sym) = none)
    (hrl : limiterActive c now = false)
    (hem : truthy em = false) (hinf : truthy inf = false)
    (hnote : truthy (some note) = true)
    (hks1 : ks ≠ []) (hks2 : ∀ ch ∈ ks, isAlnumC ch = true) :
    (GET sym c (some k) (.ok ⟨em, inf, some note, gq⟩) now).1 =
      ⟨503, .err { status := "error", message := "Service not available"
                 , rateLimit := some (sanitize note) }⟩ ∧
    sanitize ⟨patAPI ++ ks⟩ = "API key" := by
  refine ⟨?_, sanitize_pat ks hks1 hks2⟩
  have hg : cacheGet c.store (toLowerStr sym) now = (none, (cacheGet c.store (toLowerStr sym) now).2) := by
    rw [← hm]
  have hr1 : (isRateLimited ⟨(cacheGet c.store (toLowerStr sym) now).2, c.rateLimitUntil⟩ now).1
      = false := by
    rw [isRateLimited_fst]
    exact hrl
  have hr : isRateLimited ⟨(cacheGet c.store (toLowerStr sym) now).2, c.rateLimitUntil⟩ now
      = (false, (isRateLimited ⟨(cacheGet c.store (toLowerStr sym) now).2, c.rateLimitUntil⟩ now).2) := by
    rw [← hr1]
  have hst : cacheGetStale
      (setRateLimited
        (isRateLimited ⟨(cacheGet c.store (toLowerStr sym) now).2, c.rateLimitUntil⟩ now).2 now).store
      (toLowerStr sym) = none := by
    show cacheGetStale
      (isRateLimited ⟨(cacheGet c.store (toLowerStr sym) now).2, c.rateLimitUntil⟩ now).2.store
      (toLowerStr sym) = none
    rw [isRateLimited_store]
    exact hstale
  unfold GET
  rw [hg]
  dsimp only
  rw [hr]
  dsimp only
  simp only [hem, hinf, hnote, Bool.false_eq_true, if_false, if_true, ite_true, ite_false]
  rw [hst]
  rfl

/-! ### Claim C10 -/

theorem lookup_ts (kk : String) (hk : (kk == "06. timestamp") = false)
    (ts : String) (q : List (String × String)) :
    List.lookup kk (("06. timestamp", ts) :: q) = List.lookup kk q := by
  simp [List.lookup, hk]

theorem mkResult_ts (ts : String) (q : List (String × String)) (now : Nat) :
    mkResult (("06. timestamp", ts) :: q) now = mkResult q now := by
  unfold mkResult
  rw [lookup_ts "01. symbol" (by decide), lookup_ts "05. price" (by decide),
    lookup_ts "09. change" (by decide), lookup_ts "10. change percent" (by decide),
    lookup_ts "07. latest trading day" (by decide)]

/-- Claim C10: in every success response the `timestamp` and `lastRefreshed`
fields equal the server time of processing (`isoOf now`), not the
upstream-reported quote time; the upstream `06. timestamp` field, although
parsed (`route.js` line 763), never appears in the response or in the cached
entry — the whole outcome of the handler (response, successor state, trace)
is unchanged when that field carries any other value. -/
theorem C10_server_time_and_ts_independence (sym : String) (c : Cache) (k : Option String)
    (em inf nt : Option String) (q : List (String × String)) (ts ts' : String) (now : Nat) :
    GET sym c k (.ok ⟨em, inf, nt, some (("06. timestamp", ts) :: q)⟩) now =
      GET sym c k (.ok ⟨em, inf, nt, some (("06. timestamp", ts') :: q)⟩) now ∧
    (mkResult q now).timestamp = isoOf now ∧
    (mkResult q now).lastRefreshed = isoOf now := by
  refine ⟨?_, rfl, rfl⟩
  unfold GET
  rcases hcg : cacheGet c.store (toLowerStr sym) now with ⟨o, m⟩
  cases o with
  | some v => rfl
  | none =>
    dsimp only
    rcases hrl2 : isRateLimited ⟨m, c.rateLimitUntil⟩ now with ⟨b, c2⟩
    cases b with
    | true => rfl
    | false =>
      dsimp only
      cases k with
      | none => rfl
      | some kk =>
        dsimp only
        cases hem : truthy em with
        | true => simp only [hem, if_true]
        | false =>
          simp only [hem, Bool.false_eq_true, if_false]
          cases hinf : truthy inf with
          | true => simp only [hinf, if_true]
          | false =>
            simp only [hinf, Bool.false_eq_true, if_false]
            cases hnt : truthy nt with
            | true => simp only [hnt, if_true]
            | false =>
              simp only [hnt, Bool.false_eq_true, if_false, List.isEmpty_cons,
                lookup_ts "01. symbol" (by decide), lookup_ts "05. price" (by decide),
                mkResult_ts]

/-! ### Claim C2 -/

/-- Claim C2 counterexample: the rate-limit check is not performed before the
fresh cache read.  At a concrete input whose trace contains both events
(empty store, limiter armed), the trace is
`[freshRead, rateCheck, staleRead]`: the rate check occurs, but not before
the fresh read. -/
theorem C2_counterexample_fresh_before_rate :
    before .rateCheck .freshRead
      (GET "AAPL" ⟨[], some (nextUtcMidnight 0)⟩ (some "K") (.ok emptyData) 5).2.2 = false ∧
    (GET "AAPL" ⟨[], some (nextUtcMidnight 0)⟩ (some "K") (.ok emptyData) 5).2.2.contains
      .rateCheck = true ∧
    (GET "AAPL" ⟨[], some (nextUtcMidnight 0)⟩ (some "K") (.ok emptyData) 5).2.2.contains
      .freshRead = true := by
  decide

/-- Claim C2 as amended: the handler evaluates its steps in strict source
order, short-circuiting on first match, with the fresh cache read FIRST and
the rate-limit gate second: every trace starts with the fresh read; any
upstream call and any stale read happen only after the rate-limit check; and
when the fresh read misses while the limiter is active, the request ends at
the gate (trace exactly fresh read, rate check, stale read — no upstream
call). -/
theorem C2_amended_order (sym : String) (c : Cache) (k : Option String)
    (r : Except String ApiData) (now : Nat) :
    (GET sym c k r now).2.2.head? = some .freshRead ∧
    ((GET sym c k r now).2.2.contains .upstreamCall = true →
      before .rateCheck .upstreamCall (GET sym c k r now).2.2 = true) ∧
    ((GET sym c k r now).2.2.contains .staleRead = true →
      before .rateCheck .staleRead (GET sym c k r now).2.2 = true) ∧
    ((cacheGet c.store (toLowerStr sym) now).1 = none → limiterActive c now = true →
      (GET sym c k r now).2.2 = [.freshRead, .rateCheck, .staleRead]) := by
  unfold GET
  split
  next v m heq =>
    refine ⟨rfl, by dsimp only; decide, by dsimp only; decide, fun ha _ => ?_⟩
    rw [heq] at ha
    simp at ha
  next m heq =>
    split
    next c2 heq2 =>
      split
      next v heq3 =>
        exact ⟨rfl, by dsimp only; decide, by dsimp only; decide, fun _ _ => rfl⟩
      next heq3 =>
        exact ⟨rfl, by dsimp only; decide, by dsimp only; decide, fun _ _ => rfl⟩
    next c2 heq2 =>
      have hla : limiterActive c now = false := by
        have h1 := congrArg Prod.fst heq2
        rw [isRateLimited_fst] at h1
        exact h1
      repeat' split
      all_goals
        exact ⟨rfl, by dsimp only; decide, by dsimp only; decide,
          fun _ hb => by rw [hla] at hb; exact Bool.noConfusion hb⟩

theorem C2_amended_order_witness :
    ((cacheGet (⟨[], some (nextUtcMidnight 0)⟩ : Cache).store (toLowerStr "AAPL") 5).1 = none ∧
     limiterActive ⟨[], some (nextUtcMidnight 0)⟩ 5 = true) ∧
    (GET "AAPL" ⟨[], some (nextUtcMidnight 0)⟩ (some "K") (.ok emptyData) 5).2.2
      = [.freshRead, .rateCheck, .staleRead] :=
  ⟨⟨by decide, by decide⟩,
   (C2_amended_order "AAPL" ⟨[], some (nextUtcMidnight 0)⟩ (some "K") (.ok emptyData) 5).2.2.2
     (by decide) (by decide)⟩

/-! ### Claim C7 -/

/-- Claim C7: every failure response has body with status `error` and a
message string; the HTTP status is 503 for upstream errors, rate-limit
signals and malformed payloads, and 500 exactly in the one case of a missing
API-key credential, which is surfaced immediately — no stale read and no
upstream call happen on that path. -/
theorem C7_error_envelope_and_codes (sym : String) (c : Cache) (k : Option String)
    (r : Except String ApiData) (now : Nat) :
    errOK (GET sym c k r now).1 ∧
    ((GET sym c k r now).1.httpStatus = 500 →
      k = none ∧
      (GET sym c k r now).1.body =
        .err { status := "error", message := "API key not configured" } ∧
      Event.staleRead ∉ (GET sym c k r now).2.2 ∧
      Event.upstreamCall ∉ (GET sym c k r now).2.2) ∧
    ((cacheGet c.store (toLowerStr sym) now).1 = none → limiterActive c now = false →
      k = none → (GET sym c k r now).1.httpStatus = 500) := by
  unfold GET
  split
  next v m heq =>
    refine ⟨rfl, fun h => absurd h (by dsimp only; decide), fun ha _ _ => ?_⟩
    rw [heq] at ha
    simp at ha
  next m heq =>
    split
    next c2 heq2 =>
      have hact : limiterActive c now = true := by
        have h1 := congrArg Prod.fst heq2
        rw [isRateLimited_fst] at h1
        exact h1
      split
      next v heq3 =>
        exact ⟨rfl, fun h => absurd h (by dsimp only; decide),
          fun _ hb _ => by rw [hact] at hb; exact Bool.noConfusion hb⟩
      next heq3 =>
        exact ⟨⟨rfl, by decide, Or.inl rfl⟩, fun h => absurd h (by dsimp only; decide),
          fun _ hb _ => by rw [hact] at hb; exact Bool.noConfusion hb⟩
    next c2 heq2 =>
      split
      next =>
        exact ⟨⟨rfl, by decide, Or.inr rfl⟩,
          fun _ => ⟨rfl, rfl, by simp, by simp⟩,
          fun _ _ _ => rfl⟩
      next kk =>
        repeat' split
        all_goals
          refine ⟨?_, fun h => absurd h (by dsimp only; decide),
            fun _ _ hc => Option.noConfusion hc⟩
        all_goals first
          | exact rfl
          | exact ⟨rfl, by dsimp only; decide, Or.inl rfl⟩

theorem C7_error_envelope_and_codes_witness :
    errOK (GET "AAPL" ⟨[], none⟩ none (.ok emptyData) 0).1 ∧
    ((cacheGet (⟨[], none⟩ : Cache).store (toLowerStr "AAPL") 0).1 = none ∧
     limiterActive ⟨[], none⟩ 0 = false ∧
     (none : Option String) = none) ∧
    (GET "AAPL" ⟨[], none⟩ none (.ok emptyData) 0).1.httpStatus = 500 :=
  ⟨(C7_error_envelope_and_codes "AAPL" ⟨[], none⟩ none (.ok emptyData) 0).1,
   ⟨by decide, by decide, rfl⟩,
   (C7_error_envelope_and_codes "AAPL" ⟨[], none⟩ none (.ok emptyData) 0).2.2
     (by decide) (by decide) rfl⟩

/-! ### Claim C8 -/

/-- Claim C8: for every input — any upstream reply, transport failure or
exception during handling, any API-key configuration, any cache state whose
stored values came from successful fetches — the handler (a total function:
the `try`/`catch` leaves no uncaught path) produces a well-formed JSON
response: either a success `QuoteResult` (status `success`, HTTP 200) or an
error envelope (status `error`, nonempty message, HTTP 503 or 500); and the
cache invariant is preserved. -/
theorem C8_total_wellformed (sym : String) (c : Cache) (k : Option String)
    (r : Except String ApiData) (now : Nat) (hc : cacheOK c.store) :
    ((∃ qr, (GET sym c k r now).1.body = .quote qr ∧ qr.status = "success" ∧
        (GET sym c k r now).1.httpStatus = 200) ∨
     (∃ e, (GET sym c k r now).1.body = .err e ∧ e.status = "error" ∧ e.message ≠ "" ∧
        ((GET sym c k r now).1.httpStatus = 503 ∨ (GET sym c k r now).1.httpStatus = 500))) ∧
    cacheOK (GET sym c k r now).2.1.store := by
  have hm0 : cacheOK (cacheGet c.store (toLowerStr sym) now).2 := cacheOK_get hc _ _
  unfold GET
  split
  next v m heq =>
    have h2 : (cacheGet c.store (toLowerStr sym) now).2 = m := congrArg Prod.snd heq
    rw [h2] at hm0
    have hv : (cacheGet c.store (toLowerStr sym) now).1 = some v := by rw [heq]
    exact ⟨Or.inl ⟨v, rfl, cacheOK_get_val hc hv, rfl⟩, hm0⟩
  next m heq =>
    have h2 : (cacheGet c.store (toLowerStr sym) now).2 = m := congrArg Prod.snd heq
    rw [h2] at hm0
    split
    next c2 heq2 =>
      have h3 : (isRateLimited ⟨m, c.rateLimitUntil⟩ now).2 = c2 := congrArg Prod.snd heq2
      have hc2 : cacheOK c2.store := by
        rw [← h3, isRateLimited_store]
        exact hm0
      split
      next v heq3 => exact ⟨Or.inl ⟨v, rfl, cacheOK_stale_val hc2 heq3, rfl⟩, hc2⟩
      next heq3 => exact ⟨Or.inr ⟨_, rfl, rfl, by decide, Or.inl rfl⟩, hc2⟩
    next c2 heq2 =>
      have h3 : (isRateLimited ⟨m, c.rateLimitUntil⟩ now).2 = c2 := congrArg Prod.snd heq2
      have hc2 : cacheOK c2.store := by
        rw [← h3, isRateLimited_store]
        exact hm0
      split
      next => exact ⟨Or.inr ⟨_, rfl, rfl, by decide, Or.inr rfl⟩, hc2⟩
      next kk =>
        repeat' split
        all_goals first
          | exact ⟨Or.inl ⟨_, rfl, rfl, rfl⟩, cacheOK_set hc2 _ rfl _ _⟩
          | (rename_i v heq4
             exact ⟨Or.inl ⟨v, rfl, cacheOK_stale_val hc2 heq4, rfl⟩, hc2⟩)
          | exact ⟨Or.inr ⟨_, rfl, rfl, by dsimp only; decide, Or.inl rfl⟩, hc2⟩

theorem C8_total_wellformed_witness :
    cacheOK (⟨[], none⟩ : Cache).store ∧
    (((∃ qr, (GET "AAPL" ⟨[], none⟩ none (.ok emptyData) 0).1.body = .quote qr ∧
        qr.status = "success" ∧
        (GET "AAPL" ⟨[], none⟩ none (.ok emptyData) 0).1.httpStatus = 200) ∨
      (∃ e, (GET "AAPL" ⟨[], none⟩ none (.ok emptyData) 0).1.body = .err e ∧
        e.status = "error" ∧ e.message ≠ "" ∧
        ((GET "AAPL" ⟨[], none⟩ none (.ok emptyData) 0).1.httpStatus = 503 ∨
         (GET "AAPL" ⟨[], none⟩ none (.ok emptyData) 0).1.httpStatus = 500))) ∧
     cacheOK (GET "AAPL" ⟨[], none⟩ none (.ok emptyData) 0).2.1.store) :=
  ⟨cacheOK_nil,
   C8_total_wellformed "AAPL" ⟨[], none⟩ none (.ok emptyData) 0 cacheOK_nil⟩

theorem C9_amended_sanitized_echo_witness :
    ((cacheGet (⟨[], none⟩ : Cache).store (toLowerStr "AAPL") 0).1 = none ∧
     cacheGetStale (cacheGet (⟨[], none⟩ : Cache).store (toLowerStr "AAPL") 0).2
       (toLowerStr "AAPL") = none ∧
     limiterActive ⟨[], none⟩ 0 = false ∧
     truthy (none : Option String) = false ∧
     truthy (some "rate limit note") = true ∧
     "DEMOKEY123".data ≠ [] ∧ (∀ ch ∈ "DEMOKEY123".data, isAlnumC ch = true)) ∧
    ((GET "AAPL" ⟨[], none⟩ (some "K") (.ok ⟨none, none, some "rate limit note", none⟩) 0).1 =
      ⟨503, .err { status := "error", message := "Service not available"
                 , rateLimit := some (sanitize "rate limit note") }⟩ ∧
     sanitize ⟨patAPI ++ "DEMOKEY123".data⟩ = "API key") :=
  ⟨⟨by decide, by decide, by decide, by decide, by decide, by decide, by decide⟩,
   C9_amended_sanitized_echo "AAPL" "rate limit note" ⟨[], none⟩ "K" none none none 0
     "DEMOKEY123".data (by decide) (by decide) (by decide) (by decide) (by decide)
     (by decide) (by decide) (by decide)⟩

end StockTicker
